import Mathlib

/-!
Verification development for the S3Uploader backup agent (src/main.py).

The source is a Python script with four core functions:
  upload_large_file_to_s3, get_current_date / is_included /
  check_file_existence (helpers), and backup_job.
External effects (filesystem and the boto3 S3 client) are modelled by a
World of oracles: each external call either returns a value or raises a
Python exception (PyErr).  Every modelled function returns the exception
that escapes it (as an Except) together with the trace of S3 API calls it
issued, in order.
-/

-- Python exceptions distinguished by the source: the two classes caught by
-- upload_large_file_to_s3, and everything else (caught only by the
-- catch-all in backup_job).
inductive PyErr where
  | fileNotFound
  | noCredentials
  | other (msg : String)
deriving DecidableEq

-- One entry of the parts list built at line 38 of src/main.py.
structure S3Part where
  partNumber : Nat
  eTag : String
deriving DecidableEq

-- S3 API calls issued by the script, with their arguments.
inductive Event where
  | create (bucket key : String)
  | uploadPart (bucket key uploadId : String) (partNumber : Nat) (body : List Nat)
  | complete (bucket key uploadId : String) (parts : List S3Part)
  | head (bucket key : String)
deriving DecidableEq

-- Calendar date used to model datetime.now().
structure Date where
  year : Nat
  month : Nat
  day : Nat
deriving DecidableEq

-- Oracles for every external call the script makes.  Files are byte lists
-- (bytes as Nat).  getsize and openFile are separate oracles because the
-- source calls os.path.getsize before open, and each call can raise on
-- its own.
structure World where
  listdir : String → Except PyErr (List String)
  getsize : String → Except PyErr Nat
  openFile : String → Except PyErr (List Nat)
  createMultipart : String → String → Except PyErr String
  uploadPart : String → String → String → Nat → List Nat → Except PyErr String
  completeMultipart : String → String → String → List S3Part → Except PyErr Unit
  headObject : String → String → Except PyErr Unit
  today : Date

-- One entry of config.yaml backup_folders, as read by backup_job:
-- config["folder"], config["s3_bucket_name"], config.get("include", []),
-- config["prefix"].  includeList is none when the key is absent.
structure FolderConfig where
  folder : String
  s3_bucket_name : String
  includeList : Option (List String)
  keyPref : String

-- part_size = 5 * 1024 * 1024 (line 13 of src/main.py).
def part_size : Nat := 5 * 1024 * 1024

-- The read loop of lines 27-39: file.read(p) returns the next p bytes
-- (fewer at end of file) and the loop stops on an empty read.  The fuel
-- argument makes the recursion structural; chunks supplies fuel equal to
-- the length of the data, which is enough whenever p is positive.
def read_chunks (p : Nat) : Nat → List Nat → List (List Nat)
  | _, [] => []
  | 0, _ :: _ => []
  | Nat.succ fuel, a :: as => List.take p (a :: as) :: read_chunks p fuel (List.drop p (a :: as))

-- The sequence of byte blocks returned by successive file.read(p) calls.
-- With p = 0 python reads an empty bytes object at once and stops.
def chunks (p : Nat) (data : List Nat) : List (List Nat) :=
  if p = 0 then [] else read_chunks p data.length data

-- The parts-upload while loop (lines 24-40): for each chunk call
-- s3.upload_part, append (part_number, etag) to the parts list, and
-- increment part_number.  An exception from upload_part escapes the loop.
def upload_parts_loop (w : World) (bucket key uploadId : String) :
    List (List Nat) → Nat → Except PyErr (List S3Part) × List Event
  | [], _ => (Except.ok [], [])
  | c :: rest, pn =>
    match w.uploadPart bucket key uploadId pn c with
    | Except.error e => (Except.error e, [Event.uploadPart bucket key uploadId pn c])
    | Except.ok tag =>
      let r := upload_parts_loop w bucket key uploadId rest (pn + 1)
      (r.1.map (fun ps => ⟨pn, tag⟩ :: ps), Event.uploadPart bucket key uploadId pn c :: r.2)

-- The upload_part events the loop issues when every call succeeds: the
-- i-th event carries part number pn + i and the i-th chunk.
def part_events (bucket key uploadId : String) : Nat → List (List Nat) → List Event
  | _, [] => []
  | pn, c :: rest =>
    Event.uploadPart bucket key uploadId pn c :: part_events bucket key uploadId (pn + 1) rest

-- Body of the try block of upload_large_file_to_s3 (lines 15-50):
-- create_multipart_upload, open the file, upload the chunks, then
-- complete_multipart_upload with the accumulated parts list.
def upload_body (w : World) (local_file_path s3_bucket_name s3_object_key : String) :
    Except PyErr Unit × List Event :=
  match w.createMultipart s3_bucket_name s3_object_key with
  | Except.error e => (Except.error e, [Event.create s3_bucket_name s3_object_key])
  | Except.ok upload_id =>
    match w.openFile local_file_path with
    | Except.error e => (Except.error e, [Event.create s3_bucket_name s3_object_key])
    | Except.ok data =>
      let r := upload_parts_loop w s3_bucket_name s3_object_key upload_id
        (chunks part_size data) 1
      match r.1 with
      | Except.error e => (Except.error e, Event.create s3_bucket_name s3_object_key :: r.2)
      | Except.ok parts =>
        ((match w.completeMultipart s3_bucket_name s3_object_key upload_id parts with
          | Except.error e => Except.error e
          | Except.ok _ => Except.ok ()),
         Event.create s3_bucket_name s3_object_key :: r.2 ++
           [Event.complete s3_bucket_name s3_object_key upload_id parts])

-- upload_large_file_to_s3 (lines 10-55).  os.path.getsize is called
-- before the try block, so an exception there always escapes; inside the
-- try block only FileNotFoundError and NoCredentialsError are caught
-- (logged, function returns normally); anything else escapes.
def upload_large_file_to_s3 (w : World) (local_file_path s3_bucket_name s3_object_key : String) :
    Except PyErr Unit × List Event :=
  match w.getsize local_file_path with
  | Except.error e => (Except.error e, [])
  | Except.ok _ =>
    let r := upload_body w local_file_path s3_bucket_name s3_object_key
    match r.1 with
    | Except.ok _ => (Except.ok (), r.2)
    | Except.error PyErr.fileNotFound => (Except.ok (), r.2)
    | Except.error PyErr.noCredentials => (Except.ok (), r.2)
    | Except.error e => (Except.error e, r.2)

-- check_file_existence (lines 68-76): head_object succeeding means the
-- object exists; any exception whatsoever is caught and yields False.
def check_file_existence (w : World) (s3_bucket_name s3_object_key : String) :
    Bool × List Event :=
  match w.headObject s3_bucket_name s3_object_key with
  | Except.ok _ => (true, [Event.head s3_bucket_name s3_object_key])
  | Except.error _ => (false, [Event.head s3_bucket_name s3_object_key])

-- Two-digit zero padding of strftime %m and %d.
def pad2 (n : Nat) : String :=
  if n < 10 then "0" ++ toString n else toString n

-- strftime with format %Y-%m-%d applied to a date.
def formatDate (d : Date) : String :=
  toString d.year ++ "-" ++ pad2 d.month ++ "-" ++ pad2 d.day

-- get_current_date (lines 57-59).
def get_current_date (w : World) : String :=
  formatDate w.today

-- Python str.endswith: the characters of suffix are a suffix of the
-- characters of s.
def ends_with (s suffix : String) : Bool :=
  List.isSuffixOf suffix.data s.data

-- Python str.startswith on one candidate.
def starts_with (s pre : String) : Bool :=
  List.isPrefixOf pre.data s.data

-- is_included (lines 61-66): return True on the first pattern the
-- filename ends with, False when the list is exhausted.
def is_included (filename : String) (include_patterns : List String) : Bool :=
  match include_patterns with
  | [] => false
  | pat :: rest => if ends_with filename pat then true else is_included filename rest

-- The destination key built at line 98: prefix + "/" + date + "/" + name.
def dest_key (keyPref current_date filename : String) : String :=
  keyPref ++ "/" ++ current_date ++ "/" ++ filename

-- os.path.join for the two-argument uses at lines 100-101.
def path_join (a b : String) : String :=
  if starts_with b "/" then b
  else if a = "" then b
  else if ends_with a "/" then a ++ b
  else a ++ "/" ++ b

-- The list comprehension at line 93.
def files_to_backup (files : List String) (include_patterns : List String) : List String :=
  files.filter (fun f => is_included f include_patterns)

-- The for loop of lines 95-101: per file, build the key, check existence,
-- and upload when missing.  An exception escaping
-- upload_large_file_to_s3 escapes the loop, abandoning later files.
def process_files (w : World) (cfg : FolderConfig) :
    List String → Except PyErr Unit × List Event
  | [] => (Except.ok (), [])
  | filename :: rest =>
    let fn := dest_key cfg.keyPref (get_current_date w) filename
    let c := check_file_existence w cfg.s3_bucket_name fn
    if c.1 then
      let r := process_files w cfg rest
      (r.1, c.2 ++ r.2)
    else
      let u := upload_large_file_to_s3 w (path_join cfg.folder filename) cfg.s3_bucket_name fn
      match u.1 with
      | Except.error e => (Except.error e, c.2 ++ u.2)
      | Except.ok _ =>
        let r := process_files w cfg rest
        (r.1, c.2 ++ u.2 ++ r.2)

-- Body of the try block of backup_job (lines 88-101).
def backup_job_body (w : World) (cfg : FolderConfig) : Except PyErr Unit × List Event :=
  match w.listdir cfg.folder with
  | Except.error e => (Except.error e, [])
  | Except.ok files => process_files w cfg (files_to_backup files (cfg.includeList.getD []))

-- backup_job (lines 87-105): the catch-all except at line 103 turns any
-- escaping exception into a log line, so the job itself never raises.
def backup_job (w : World) (cfg : FolderConfig) : Except PyErr Unit × List Event :=
  match backup_job_body w cfg with
  | (Except.ok _, evs) => (Except.ok (), evs)
  | (Except.error _, evs) => (Except.ok (), evs)

-- The S3 key an event addresses.
def Event.keyOf : Event → String
  | Event.create _ k => k
  | Event.uploadPart _ k _ _ _ => k
  | Event.complete _ k _ _ => k
  | Event.head _ k => k

-- Whether an event is a complete_multipart_upload call.
def Event.isComplete : Event → Bool
  | Event.complete _ _ _ _ => true
  | _ => false

-- The body carried by an upload_part event.
def Event.body? : Event → Option (List Nat)
  | Event.uploadPart _ _ _ _ b => some b
  | _ => none

-- Whether an event writes (creates, uploads a part of, or completes) the
-- object at key k.  A head call only reads.
def isMutationOf (k : String) : Event → Bool
  | Event.create _ key => key = k
  | Event.uploadPart _ key _ _ _ => key = k
  | Event.complete _ key _ _ => key = k
  | Event.head _ _ => false

-- Destination keys of the candidate files of one run, in order.
def candidate_keys (w : World) (cfg : FolderConfig) (files : List String) : List String :=
  (files_to_backup files (cfg.includeList.getD [])).map
    (dest_key cfg.keyPref (get_current_date w))

-- Events of a trace addressing key k.
def events_for_key (k : String) (evs : List Event) : List Event :=
  evs.filter (fun e => Event.keyOf e == k)

-- Bodies of the upload_part calls of one upload, in call order.
def upload_bodies (w : World) (local_file_path s3_bucket_name s3_object_key : String) :
    List (List Nat) :=
  (upload_large_file_to_s3 w local_file_path s3_bucket_name s3_object_key).2.filterMap
    Event.body?

-- Concrete worlds used to exercise the theorems.

-- A world where every call succeeds: one 3-byte file, head_object finds
-- every key.
def Wok : World :=
  { listdir := fun _ => Except.ok ["a.sql", "b.tmp"]
    getsize := fun _ => Except.ok 3
    openFile := fun _ => Except.ok [1, 2, 3]
    createMultipart := fun _ _ => Except.ok "uid"
    uploadPart := fun _ _ _ _ _ => Except.ok "etag"
    completeMultipart := fun _ _ _ _ => Except.ok ()
    headObject := fun _ _ => Except.ok ()
    today := ⟨2024, 3, 1⟩ }

-- Like Wok but every upload_part call raises a generic client error.
def Wfail : World :=
  { Wok with uploadPart := fun _ _ _ _ _ => Except.error (PyErr.other "boom") }

-- Like Wok but the file is empty.
def Wempty : World :=
  { Wok with getsize := fun _ => Except.ok 0, openFile := fun _ => Except.ok [] }

-- Two candidate log files, no key exists, and upload_part raises a
-- generic client error, so the first upload aborts the run.
def Wabort : World :=
  { listdir := fun _ => Except.ok ["a.log", "b.log"]
    getsize := fun _ => Except.ok 1
    openFile := fun _ => Except.ok [7]
    createMultipart := fun _ _ => Except.ok "u"
    uploadPart := fun _ _ _ _ _ => Except.error (PyErr.other "boom")
    completeMultipart := fun _ _ _ _ => Except.ok ()
    headObject := fun _ _ => Except.error (PyErr.other "nf")
    today := ⟨2024, 3, 1⟩ }

-- Folder configurations used with the worlds above.
def cfg0 : FolderConfig :=
  { folder := "/data", s3_bucket_name := "bkt", includeList := some [".sql"], keyPref := "db" }

def cfg6 : FolderConfig :=
  { folder := "/data", s3_bucket_name := "bkt", includeList := some [".log"], keyPref := "p" }

/-! Lemmas about the chunking performed by the read loop. -/

-- The result of read_chunks does not depend on the fuel, as long as the
-- fuel covers the length of the data and p is positive.
theorem read_chunks_nil (p fuel : Nat) : read_chunks p fuel [] = [] := by
  cases fuel <;> rfl

theorem read_chunks_fuel (p : Nat) (hp : p ≠ 0) :
    ∀ f1 f2 data, List.length data ≤ f1 → List.length data ≤ f2 →
      read_chunks p f1 data = read_chunks p f2 data := by
  intro f1
  induction f1 with
  | zero =>
    intro f2 data hd _
    have : data = [] := List.eq_nil_of_length_eq_zero (Nat.le_zero.mp hd)
    subst this
    rw [read_chunks_nil, read_chunks_nil]
  | succ n ih =>
    intro f2 data h1 h2
    match data with
    | [] => rw [read_chunks_nil, read_chunks_nil]
    | a :: as =>
      match f2 with
      | 0 => simp at h2
      | m + 1 =>
        show List.take p (a :: as) :: read_chunks p n (List.drop p (a :: as)) =
          List.take p (a :: as) :: read_chunks p m (List.drop p (a :: as))
        congr 1
        have hdrop : (List.drop p (a :: as)).length = as.length + 1 - p := by
          simp [List.length_drop]
        apply ih
        · rw [hdrop]
          have := Nat.pos_of_ne_zero hp
          simp [List.length_cons] at h1
          omega
        · rw [hdrop]
          have := Nat.pos_of_ne_zero hp
          simp [List.length_cons] at h2
          omega

theorem chunks_nil (p : Nat) : chunks p [] = [] := by
  unfold chunks
  split <;> rfl

-- Unfolding step of the read loop: a nonempty file yields a first read of
-- p bytes followed by the chunks of the rest.
theorem chunks_cons (p : Nat) (data : List Nat) (hp : p ≠ 0) (hd : data ≠ []) :
    chunks p data = List.take p data :: chunks p (List.drop p data) := by
  match data with
  | [] => exact absurd rfl hd
  | a :: as =>
    unfold chunks
    rw [if_neg hp, if_neg hp]
    show List.take p (a :: as) :: read_chunks p as.length (List.drop p (a :: as)) = _
    congr 1
    apply read_chunks_fuel p hp
    · simp [List.length_drop]
      have := Nat.pos_of_ne_zero hp
      omega
    · exact le_refl _

-- Induction principle following the recursion structure of the read loop.
theorem chunks_ind (p : Nat) (hp : p ≠ 0) (motive : List Nat → Prop)
    (h1 : motive [])
    (h2 : ∀ d, d ≠ [] → motive (List.drop p d) → motive d) :
    ∀ data, motive data := by
  intro data
  generalize hn : data.length = n
  induction n using Nat.strong_induction_on generalizing data with
  | _ n ih =>
    rcases eq_or_ne data [] with h | h
    · subst h; exact h1
    · refine h2 data h (ih (List.drop p data).length ?_ _ rfl)
      rw [← hn, List.length_drop]
      exact Nat.sub_lt (List.length_pos.mpr h) (Nat.pos_of_ne_zero hp)

-- Concatenating the chunks restores the file.
theorem chunks_flatten (p : Nat) (hp : p ≠ 0) (data : List Nat) :
    (chunks p data).flatten = data := by
  induction data using chunks_ind p hp with
  | h1 => simp [chunks_nil]
  | h2 d hd ihd =>
    rw [chunks_cons p d hp hd]
    simp only [List.flatten_cons, ihd]
    exact List.take_append_drop p d

-- The lengths of the chunks sum to the file size.
theorem chunks_length_sum (p : Nat) (hp : p ≠ 0) (data : List Nat) :
    (List.map List.length (chunks p data)).sum = data.length := by
  rw [← List.length_flatten, chunks_flatten p hp]

-- Every chunk but the last has exactly p bytes.
theorem chunks_dropLast_length (p : Nat) (hp : p ≠ 0) (data : List Nat) :
    ∀ c ∈ (chunks p data).dropLast, List.length c = p := by
  induction data using chunks_ind p hp with
  | h1 => simp [chunks_nil]
  | h2 d hd ihd =>
    rw [chunks_cons p d hp hd]
    rcases eq_or_ne (List.drop p d) [] with hdrop | hdrop
    · rw [hdrop, chunks_nil]
      simp
    · have hlt : p < d.length := by
        by_contra hle
        exact hdrop (List.drop_eq_nil_iff.mpr (by omega))
      have hcons : chunks p (List.drop p d) ≠ [] := by
        rw [chunks_cons p _ hp hdrop]
        simp
      rw [List.dropLast_cons_of_ne_nil hcons]
      intro c hc
      rcases List.mem_cons.mp hc with h | h
      · subst h
        rw [List.length_take]
        omega
      · exact ihd c h

-- When the file size is not a multiple of p, the last chunk holds exactly
-- the remainder of the size modulo p.
theorem chunks_getLast_length (p : Nat) (hp : p ≠ 0) (data : List Nat) :
    data ≠ [] → ¬ p ∣ data.length →
      ∃ l, (chunks p data).getLast? = some l ∧ List.length l = data.length % p := by
  induction data using chunks_ind p hp with
  | h1 => intro h; exact absurd rfl h
  | h2 d hd ihd =>
    intro _ hnd
    rw [chunks_cons p d hp hd]
    rcases eq_or_ne (List.drop p d) [] with hdrop | hdrop
    · have hle : d.length ≤ p := by
        have := List.drop_eq_nil_iff.mp hdrop
        omega
      have hlt : d.length < p := by
        rcases Nat.lt_or_ge d.length p with h | h
        · exact h
        · have : d.length = p := le_antisymm hle h
          exact absurd (this ▸ dvd_refl p) hnd
      refine ⟨List.take p d, ?_, ?_⟩
      · rw [hdrop, chunks_nil]
        rfl
      · rw [List.length_take, Nat.mod_eq_of_lt hlt]
        omega
    · have hle : p ≤ d.length := by
        by_contra hc
        exact hdrop (List.drop_eq_nil_iff.mpr (by omega))
      have hnd2 : ¬ p ∣ (List.drop p d).length := by
        rw [List.length_drop]
        intro hdvd
        exact hnd (by
          have : d.length = (d.length - p) + p := (Nat.sub_add_cancel hle).symm
          rw [this]
          exact Nat.dvd_add hdvd (dvd_refl p))
      obtain ⟨l, hl, hlen⟩ := ihd hdrop hnd2
      obtain ⟨y, ys, hys⟩ : ∃ y ys, chunks p (List.drop p d) = y :: ys := by
        rw [chunks_cons p _ hp hdrop]
        exact ⟨_, _, rfl⟩
      refine ⟨l, ?_, ?_⟩
      · rw [hys]
        rw [hys] at hl
        exact (List.getLast?_cons_cons).trans hl
      · rw [hlen, List.length_drop, ← Nat.mod_eq_sub_mod hle]

/-! Lemmas about the parts-upload loop and the uploader trace. -/

-- Every event the loop issues is an upload_part call on the given key.
theorem upload_parts_loop_keys (w : World) (bucket key uploadId : String) :
    ∀ cs pn, ∀ e ∈ (upload_parts_loop w bucket key uploadId cs pn).2,
      Event.keyOf e = key ∧ Event.isComplete e = false := by
  intro cs
  induction cs with
  | nil => intro pn e he; simp [upload_parts_loop] at he
  | cons c rest ih =>
    intro pn e he
    unfold upload_parts_loop at he
    cases hcall : w.uploadPart bucket key uploadId pn c with
    | error err =>
      rw [hcall] at he
      simp at he
      subst he
      exact ⟨rfl, rfl⟩
    | ok tag =>
      rw [hcall] at he
      simp at he
      rcases he with he | he
      · subst he; exact ⟨rfl, rfl⟩
      · exact ih (pn + 1) e he

-- When every upload_part call succeeds, the parts list records the part
-- numbers pn, pn+1, ... in order and the trace is exactly the sequence of
-- upload_part events carrying the chunks in file order.
theorem upload_parts_loop_ok (w : World) (bucket key uploadId : String) :
    ∀ cs pn ps, (upload_parts_loop w bucket key uploadId cs pn).1 = Except.ok ps →
      List.map S3Part.partNumber ps = List.range' pn cs.length ∧
      (upload_parts_loop w bucket key uploadId cs pn).2 =
        part_events bucket key uploadId pn cs := by
  intro cs
  induction cs with
  | nil =>
    intro pn ps hok
    simp [upload_parts_loop] at hok
    subst hok
    simp [upload_parts_loop, part_events]
  | cons c rest ih =>
    intro pn ps hok
    unfold upload_parts_loop at hok ⊢
    cases hcall : w.uploadPart bucket key uploadId pn c with
    | error err => rw [hcall] at hok; simp at hok
    | ok tag =>
      rw [hcall] at hok
      simp at hok
      cases hrest : (upload_parts_loop w bucket key uploadId rest (pn + 1)).1 with
      | error err => rw [hrest] at hok; simp [Except.map] at hok
      | ok ps' =>
        rw [hrest] at hok
        simp [Except.map] at hok
        obtain ⟨h1, h2⟩ := ih (pn + 1) ps' hrest
        subst hok
        constructor
        · simp [List.map_cons, h1, List.length_cons, List.range'_succ]
        · simp [part_events, h2]

-- When some upload_part call fails, the exception that escapes the loop
-- is the one raised by a specific part whose call is the last event of
-- the trace.
theorem upload_parts_loop_error (w : World) (bucket key uploadId : String) :
    ∀ cs pn err, (upload_parts_loop w bucket key uploadId cs pn).1 = Except.error err →
      ∃ n c, Event.uploadPart bucket key uploadId n c ∈
          (upload_parts_loop w bucket key uploadId cs pn).2 ∧
        w.uploadPart bucket key uploadId n c = Except.error err := by
  intro cs
  induction cs with
  | nil => intro pn err h; simp [upload_parts_loop] at h
  | cons c rest ih =>
    intro pn err h
    unfold upload_parts_loop at h ⊢
    cases hcall : w.uploadPart bucket key uploadId pn c with
    | error e0 =>
      rw [hcall] at h
      simp at h
      subst h
      exact ⟨pn, c, by simp, hcall⟩
    | ok tag =>
      rw [hcall] at h
      simp at h
      cases hrest : (upload_parts_loop w bucket key uploadId rest (pn + 1)).1 with
      | error e1 =>
        rw [hrest] at h
        simp [Except.map] at h
        subst h
        obtain ⟨n, c', hmem, hc⟩ := ih (pn + 1) e1 hrest
        exact ⟨n, c', by simp [hmem], hc⟩
      | ok ps' => rw [hrest] at h; simp [Except.map] at h

-- The bodies carried by the success trace are exactly the chunks.
theorem part_events_bodies (bucket key uploadId : String) :
    ∀ cs pn, List.filterMap Event.body? (part_events bucket key uploadId pn cs) = cs := by
  intro cs
  induction cs with
  | nil => intro pn; rfl
  | cons c rest ih => intro pn; simp [part_events, Event.body?, ih]

-- A failing getsize call escapes before any S3 call is made.
theorem upload_getsize_error (w : World) (p B K : String) (err : PyErr)
    (hsz : w.getsize p = Except.error err) :
    upload_large_file_to_s3 w p B K = (Except.error err, []) := by
  simp [upload_large_file_to_s3, hsz]

-- Trace of a fully successful parts loop: one create call, the part
-- uploads in file order, then one complete call with the parts list.
theorem upload_trace_ok (w : World) (p B K uid : String) (data : List Nat) (s : Nat)
    (ps : List S3Part)
    (hsz : w.getsize p = Except.ok s)
    (hc : w.createMultipart B K = Except.ok uid)
    (ho : w.openFile p = Except.ok data)
    (hl : (upload_parts_loop w B K uid (chunks part_size data) 1).1 = Except.ok ps) :
    (upload_large_file_to_s3 w p B K).2 =
      Event.create B K :: (upload_parts_loop w B K uid (chunks part_size data) 1).2 ++
        [Event.complete B K uid ps] := by
  cases hcomp : w.completeMultipart B K uid ps with
  | ok u =>
    simp [upload_large_file_to_s3, upload_body, hsz, hc, ho, hl, hcomp]
  | error e0 =>
    cases e0 <;> simp [upload_large_file_to_s3, upload_body, hsz, hc, ho, hl, hcomp]

-- Trace of a parts loop that raised: one create call followed by the
-- loop trace, and in particular no complete call, whatever the exception.
theorem upload_trace_error (w : World) (p B K uid : String) (data : List Nat) (s : Nat)
    (err : PyErr)
    (hsz : w.getsize p = Except.ok s)
    (hc : w.createMultipart B K = Except.ok uid)
    (ho : w.openFile p = Except.ok data)
    (hl : (upload_parts_loop w B K uid (chunks part_size data) 1).1 = Except.error err) :
    (upload_large_file_to_s3 w p B K).2 =
      Event.create B K :: (upload_parts_loop w B K uid (chunks part_size data) 1).2 := by
  cases err <;> simp [upload_large_file_to_s3, upload_body, hsz, hc, ho, hl]

-- Every event an upload issues addresses the destination key it was
-- given.
theorem upload_trace_keys (w : World) (p B K : String) :
    ∀ e ∈ (upload_large_file_to_s3 w p B K).2, Event.keyOf e = K := by
  intro e he
  have hbody : ∀ e ∈ (upload_body w p B K).2, Event.keyOf e = K := by
    intro e' he'
    unfold upload_body at he'
    cases hc : w.createMultipart B K with
    | error e0 => rw [hc] at he'; simp at he'; subst he'; rfl
    | ok uid =>
      rw [hc] at he'
      cases ho : w.openFile p with
      | error e1 => rw [ho] at he'; simp at he'; subst he'; rfl
      | ok data =>
        rw [ho] at he'
        simp only at he'
        cases hl : (upload_parts_loop w B K uid (chunks part_size data) 1).1 with
        | error e2 =>
          rw [hl] at he'
          simp at he'
          rcases he' with he' | he'
          · subst he'; rfl
          · exact (upload_parts_loop_keys w B K uid _ 1 e' he').1
        | ok ps =>
          rw [hl] at he'
          simp at he'
          rcases he' with he' | he' | he'
          · subst he'; rfl
          · exact (upload_parts_loop_keys w B K uid _ 1 e' he').1
          · subst he'; rfl
  unfold upload_large_file_to_s3 at he
  cases hsz : w.getsize p with
  | error e0 => rw [hsz] at he; simp at he
  | ok s =>
    rw [hsz] at he
    simp only at he
    cases hr : (upload_body w p B K).1 with
    | ok u => rw [hr] at he; exact hbody e he
    | error e1 =>
      rw [hr] at he
      cases e1 <;> exact hbody e he

-- No event of an upload whose parts loop raised is a complete call.
theorem upload_no_complete_of_loop_error (w : World) (p B K uid : String) (data : List Nat)
    (s : Nat) (err : PyErr)
    (hsz : w.getsize p = Except.ok s)
    (hc : w.createMultipart B K = Except.ok uid)
    (ho : w.openFile p = Except.ok data)
    (hl : (upload_parts_loop w B K uid (chunks part_size data) 1).1 = Except.error err) :
    ∀ e ∈ (upload_large_file_to_s3 w p B K).2, Event.isComplete e = false := by
  intro e he
  rw [upload_trace_error w p B K uid data s err hsz hc ho hl] at he
  simp at he
  rcases he with he | he
  · subst he; rfl
  · exact (upload_parts_loop_keys w B K uid _ 1 e he).2

/-! Lemmas about the per-file loop of backup_job. -/

theorem check_ok (w : World) (B K : String) (u : Unit)
    (h : w.headObject B K = Except.ok u) :
    check_file_existence w B K = (true, [Event.head B K]) := by
  simp [check_file_existence, h]

theorem check_error (w : World) (B K : String) (err : PyErr)
    (h : w.headObject B K = Except.error err) :
    check_file_existence w B K = (false, [Event.head B K]) := by
  simp [check_file_existence, h]

-- A file whose key exists is skipped: only the head call is added.
theorem process_files_skip (w : World) (cfg : FolderConfig) (f : String) (rest : List String)
    (u : Unit)
    (h : w.headObject cfg.s3_bucket_name (dest_key cfg.keyPref (get_current_date w) f) =
      Except.ok u) :
    process_files w cfg (f :: rest) =
      ((process_files w cfg rest).1,
        Event.head cfg.s3_bucket_name (dest_key cfg.keyPref (get_current_date w) f) ::
          (process_files w cfg rest).2) := by
  simp [process_files, check_file_existence, h]

-- A file whose key is missing and whose upload lets no exception escape:
-- the head call and the upload trace are added and the loop continues.
theorem process_files_upload_ok (w : World) (cfg : FolderConfig) (f : String)
    (rest : List String) (err : PyErr)
    (h : w.headObject cfg.s3_bucket_name (dest_key cfg.keyPref (get_current_date w) f) =
      Except.error err)
    (hu : (upload_large_file_to_s3 w (path_join cfg.folder f) cfg.s3_bucket_name
      (dest_key cfg.keyPref (get_current_date w) f)).1 = Except.ok ()) :
    process_files w cfg (f :: rest) =
      ((process_files w cfg rest).1,
        Event.head cfg.s3_bucket_name (dest_key cfg.keyPref (get_current_date w) f) ::
          (upload_large_file_to_s3 w (path_join cfg.folder f) cfg.s3_bucket_name
            (dest_key cfg.keyPref (get_current_date w) f)).2 ++
          (process_files w cfg rest).2) := by
  simp [process_files, check_file_existence, h, hu]

-- A file whose key is missing and whose upload raises an exception that
-- upload_large_file_to_s3 does not catch: the loop stops, the remaining
-- files are abandoned, and the exception escapes to the catch-all of
-- backup_job.
theorem process_files_upload_error (w : World) (cfg : FolderConfig) (f : String)
    (rest : List String) (err errU : PyErr)
    (h : w.headObject cfg.s3_bucket_name (dest_key cfg.keyPref (get_current_date w) f) =
      Except.error err)
    (hu : (upload_large_file_to_s3 w (path_join cfg.folder f) cfg.s3_bucket_name
      (dest_key cfg.keyPref (get_current_date w) f)).1 = Except.error errU) :
    process_files w cfg (f :: rest) =
      (Except.error errU,
        Event.head cfg.s3_bucket_name (dest_key cfg.keyPref (get_current_date w) f) ::
          (upload_large_file_to_s3 w (path_join cfg.folder f) cfg.s3_bucket_name
            (dest_key cfg.keyPref (get_current_date w) f)).2) := by
  simp [process_files, check_file_existence, h, hu]

-- backup_job issues exactly the calls its body issues; the catch-all only
-- hides the exception.
theorem backup_job_trace (w : World) (cfg : FolderConfig) :
    (backup_job w cfg).2 = (backup_job_body w cfg).2 := by
  unfold backup_job
  cases h : backup_job_body w cfg with
  | mk r evs => cases r <;> rfl

-- A mutation test against key k fails on every event addressing a
-- different key and on every head call.
theorem isMutationOf_false_of_key_ne (k : String) (e : Event)
    (h : Event.keyOf e ≠ k) : isMutationOf k e = false := by
  cases e <;> simp_all [isMutationOf, Event.keyOf]

-- Core of claim C1: while the existence check reports the key as present,
-- no event of the run writes to that key.
theorem process_files_no_mutation (w : World) (cfg : FolderConfig) (k : String)
    (hk : (w.headObject cfg.s3_bucket_name k).isOk = true) :
    ∀ fs, ∀ e ∈ (process_files w cfg fs).2, isMutationOf k e = false := by
  intro fs
  induction fs with
  | nil => simp [process_files]
  | cons f rest ih =>
    intro e he
    cases hh : w.headObject cfg.s3_bucket_name (dest_key cfg.keyPref (get_current_date w) f) with
    | ok u =>
      rw [process_files_skip w cfg f rest u hh] at he
      simp at he
      rcases he with he | he
      · subst he; rfl
      · exact ih e he
    | error errH =>
      have hne : dest_key cfg.keyPref (get_current_date w) f ≠ k := by
        intro hEq
        rw [hEq] at hh
        rw [hh] at hk
        simp [Except.isOk, Except.toBool] at hk
      cases hu : (upload_large_file_to_s3 w (path_join cfg.folder f) cfg.s3_bucket_name
          (dest_key cfg.keyPref (get_current_date w) f)).1 with
      | ok u' =>
        cases u'
        rw [process_files_upload_ok w cfg f rest errH hh hu] at he
        simp at he
        rcases he with he | he | he
        · subst he; rfl
        · exact isMutationOf_false_of_key_ne k e
            ((upload_trace_keys w _ _ _ e he).symm ▸ hne)
        · exact ih e he
      | error errU =>
        rw [process_files_upload_error w cfg f rest errH errU hh hu] at he
        simp at he
        rcases he with he | he
        · subst he; rfl
        · exact isMutationOf_false_of_key_ne k e
            ((upload_trace_keys w _ _ _ e he).symm ▸ hne)

/-- Claim C1: when the existence check reports that an object already
exists at a key of the bucket, a backup_job run makes no
create_multipart_upload, upload_part, or complete_multipart_upload call
for that key, whatever the contents of the source files, so the run never
re-uploads an existing key. -/
theorem c1_skip_existing (w : World) (cfg : FolderConfig) (k : String)
    (hk : (w.headObject cfg.s3_bucket_name k).isOk = true) :
    ∀ e ∈ (backup_job w cfg).2, isMutationOf k e = false := by
  intro e he
  rw [backup_job_trace] at he
  unfold backup_job_body at he
  cases hls : w.listdir cfg.folder with
  | error e0 => rw [hls] at he; simp at he
  | ok files =>
    rw [hls] at he
    exact process_files_no_mutation w cfg k hk _ e he

/-- Witness for C1: in a world where head_object succeeds on every key,
the run of the sample configuration issues a head call on the key of
a.sql and that event writes nothing. -/
theorem c1_skip_existing_witness :
    isMutationOf "db/2024-03-01/a.sql" (Event.head "bkt" "db/2024-03-01/a.sql") = false :=
  c1_skip_existing Wok cfg0 "db/2024-03-01/a.sql" rfl
    (Event.head "bkt" "db/2024-03-01/a.sql") (by decide)

/-- Claim C7: backup_job returns normally for every configuration and
world: the catch-all handler at the end of backup_job swallows every
exception its body can raise, so no exception escapes the job. -/
theorem c7_never_raises (w : World) (cfg : FolderConfig) :
    (backup_job w cfg).1 = Except.ok () := by
  unfold backup_job
  cases h : backup_job_body w cfg with
  | mk r evs => cases r <;> rfl

-- A filename passes is_included exactly when it ends with one of the
-- patterns.
theorem is_included_iff (f : String) :
    ∀ pats, is_included f pats = true ↔ ∃ p ∈ pats, ends_with f p = true := by
  intro pats
  induction pats with
  | nil => simp [is_included]
  | cons pat rest ih =>
    unfold is_included
    by_cases h : ends_with f pat = true
    · rw [if_pos h]
      simp only [true_iff]
      exact ⟨pat, List.mem_cons_self pat rest, h⟩
    · rw [if_neg h, ih]
      constructor
      · rintro ⟨p, hp, he⟩
        exact ⟨p, List.mem_cons_of_mem _ hp, he⟩
      · rintro ⟨p, hp, he⟩
        rcases List.mem_cons.mp hp with rfl | hp'
        · exact absurd he h
        · exact ⟨p, hp', he⟩

/-- Claim C8: a listed filename becomes an upload candidate exactly when
it ends with at least one configured include suffix, and the empty
suffix list selects nothing. -/
theorem c8_suffix_filter (f : String) (pats : List String) (files : List String) :
    (is_included f pats = true ↔ ∃ p ∈ pats, ends_with f p = true) ∧
    is_included f [] = false ∧
    (f ∈ files_to_backup files pats ↔ f ∈ files ∧ is_included f pats = true) ∧
    files_to_backup files [] = [] := by
  refine ⟨is_included_iff f pats, rfl, List.mem_filter, ?_⟩
  apply List.filter_eq_nil_iff.mpr
  intro a _
  simp [is_included]

/-- Claim C9: any exception raised by the head-object call makes
check_file_existence return False without raising, after which the
per-file loop invokes the uploader for that file (the upload trace
follows the head call in the job trace). -/
theorem c9_check_failure_means_missing (w : World) (B K : String) (err : PyErr)
    (h : w.headObject B K = Except.error err) :
    check_file_existence w B K = (false, [Event.head B K]) ∧
    ∀ (cfg : FolderConfig) (f : String) (rest : List String),
      cfg.s3_bucket_name = B → dest_key cfg.keyPref (get_current_date w) f = K →
      ∃ t, (process_files w cfg (f :: rest)).2 =
        Event.head B K ::
          (upload_large_file_to_s3 w (path_join cfg.folder f) B K).2 ++ t := by
  refine ⟨check_error w B K err h, ?_⟩
  intro cfg f rest hB hK
  subst hB
  subst hK
  cases hu : (upload_large_file_to_s3 w (path_join cfg.folder f) cfg.s3_bucket_name
      (dest_key cfg.keyPref (get_current_date w) f)).1 with
  | ok u =>
    cases u
    rw [process_files_upload_ok w cfg f rest err h hu]
    exact ⟨(process_files w cfg rest).2, by simp⟩
  | error eU =>
    rw [process_files_upload_error w cfg f rest err eU h hu]
    exact ⟨[], by simp⟩

/-- Witness for C9: in the failing-head world the existence check on the
key of a.log returns False with exactly one head call. -/
theorem c9_witness :
    check_file_existence Wabort "bkt" "p/2024-03-01/a.log" =
      (false, [Event.head "bkt" "p/2024-03-01/a.log"]) :=
  (c9_check_failure_means_missing Wabort "bkt" "p/2024-03-01/a.log"
    (PyErr.other "nf") rfl).1

/-- Claim C10: uploading a zero-byte file still initiates a multipart
upload, performs no upload_part call, and completes with an empty parts
list. -/
theorem c10_empty_file (w : World) (p B K uid : String) (s : Nat)
    (hsz : w.getsize p = Except.ok s)
    (hc : w.createMultipart B K = Except.ok uid)
    (ho : w.openFile p = Except.ok []) :
    (upload_large_file_to_s3 w p B K).2 =
      [Event.create B K, Event.complete B K uid []] := by
  have hloop : upload_parts_loop w B K uid (chunks part_size []) 1 = (Except.ok [], []) := by
    rw [chunks_nil]
    rfl
  rw [upload_trace_ok w p B K uid [] s [] hsz hc ho (by rw [hloop])]
  rw [hloop]
  rfl

/-- Witness for C10: the empty-file world issues exactly the create and
complete calls. -/
theorem c10_witness :
    (upload_large_file_to_s3 Wempty "/data/a.sql" "bkt" "k").2 =
      [Event.create "bkt" "k", Event.complete "bkt" "k" "uid" []] :=
  c10_empty_file Wempty "/data/a.sql" "bkt" "k" "uid" 0 rfl rfl rfl

/-- Claim C2: when every part call succeeds, the uploader issues one
create call, then the part uploads in file order carrying strictly
increasing part numbers starting at 1 (the i-th event carries the i-th
chunk), then one complete call whose parts list is numbered 1, 2, ... in
ascending order with no gaps. -/
theorem c2_parts_in_order (w : World) (p B K uid : String) (data : List Nat) (s : Nat)
    (ps : List S3Part)
    (hsz : w.getsize p = Except.ok s)
    (hc : w.createMultipart B K = Except.ok uid)
    (ho : w.openFile p = Except.ok data)
    (hl : (upload_parts_loop w B K uid (chunks part_size data) 1).1 = Except.ok ps) :
    List.map S3Part.partNumber ps = List.range' 1 (chunks part_size data).length ∧
    (upload_large_file_to_s3 w p B K).2 =
      Event.create B K :: part_events B K uid 1 (chunks part_size data) ++
        [Event.complete B K uid ps] := by
  obtain ⟨h1, h2⟩ := upload_parts_loop_ok w B K uid _ 1 ps hl
  refine ⟨h1, ?_⟩
  rw [upload_trace_ok w p B K uid data s ps hsz hc ho hl, h2]

/-- Witness for C2: the one-chunk upload of the 3-byte file completes
with the single part number 1. -/
theorem c2_witness :
    List.map S3Part.partNumber [⟨1, "etag"⟩] =
      List.range' 1 (chunks part_size [1, 2, 3]).length :=
  (c2_parts_in_order Wok "/data/a.sql" "bkt" "k" "uid" [1, 2, 3] 3 [⟨1, "etag"⟩]
    rfl rfl rfl rfl).1

/-- Claim C3: for a successful upload of a non-empty file, the uploaded
part bodies are exactly the chunks of the file: every part except the
last holds exactly 5 MiB, when the size is not a multiple of the chunk
size the final part holds size mod 5 MiB bytes, the concatenation of the
bodies is the file, and the body lengths sum to the file size. -/
theorem c3_chunk_sizes (w : World) (p B K uid : String) (data : List Nat) (s : Nat)
    (ps : List S3Part)
    (hsz : w.getsize p = Except.ok s)
    (hc : w.createMultipart B K = Except.ok uid)
    (ho : w.openFile p = Except.ok data)
    (hl : (upload_parts_loop w B K uid (chunks part_size data) 1).1 = Except.ok ps)
    (hne : data ≠ []) :
    upload_bodies w p B K = chunks part_size data ∧
    (upload_bodies w p B K).flatten = data ∧
    (List.map List.length (upload_bodies w p B K)).sum = data.length ∧
    (∀ c ∈ (upload_bodies w p B K).dropLast, List.length c = part_size) ∧
    (¬ part_size ∣ data.length →
      ∃ l, (upload_bodies w p B K).getLast? = some l ∧
        List.length l = data.length % part_size) := by
  have hp : part_size ≠ 0 := by decide
  have hb : upload_bodies w p B K = chunks part_size data := by
    unfold upload_bodies
    rw [upload_trace_ok w p B K uid data s ps hsz hc ho hl,
        (upload_parts_loop_ok w B K uid _ 1 ps hl).2]
    simp [List.filterMap_append, Event.body?, part_events_bodies]
  refine ⟨hb, ?_, ?_, ?_, ?_⟩
  · rw [hb]; exact chunks_flatten part_size hp data
  · rw [hb]; exact chunks_length_sum part_size hp data
  · rw [hb]; exact chunks_dropLast_length part_size hp data
  · rw [hb]; intro hnd; exact chunks_getLast_length part_size hp data hne hnd

/-- Witness for C3: the bodies uploaded for the 3-byte file are its
chunks. -/
theorem c3_witness :
    upload_bodies Wok "/data/a.sql" "bkt" "k" = chunks part_size [1, 2, 3] :=
  (c3_chunk_sizes Wok "/data/a.sql" "bkt" "k" "uid" [1, 2, 3] 3 [⟨1, "etag"⟩]
    rfl rfl rfl rfl (by decide)).1

/-- Claim C5: when some upload_part call raises, the exception that
escapes the parts loop is the one raised by that part, no complete call
is ever issued for the session, and the failing part call is in the
trace. -/
theorem c5_part_failure (w : World) (p B K uid : String) (data : List Nat) (s : Nat)
    (err : PyErr)
    (hsz : w.getsize p = Except.ok s)
    (hc : w.createMultipart B K = Except.ok uid)
    (ho : w.openFile p = Except.ok data)
    (hl : (upload_parts_loop w B K uid (chunks part_size data) 1).1 = Except.error err) :
    (∀ e ∈ (upload_large_file_to_s3 w p B K).2, Event.isComplete e = false) ∧
    ∃ n c, Event.uploadPart B K uid n c ∈ (upload_large_file_to_s3 w p B K).2 ∧
      w.uploadPart B K uid n c = Except.error err := by
  refine ⟨upload_no_complete_of_loop_error w p B K uid data s err hsz hc ho hl, ?_⟩
  obtain ⟨n, c, hmem, hcall⟩ := upload_parts_loop_error w B K uid _ 1 err hl
  refine ⟨n, c, ?_, hcall⟩
  rw [upload_trace_error w p B K uid data s err hsz hc ho hl]
  simp [hmem]

/-- Witness for C5: with every upload_part call failing, the create call
of the aborted session is in the trace and is not a complete call. -/
theorem c5_witness : Event.isComplete (Event.create "bkt" "k") = false :=
  (c5_part_failure Wfail "/data/a.sql" "bkt" "k" "uid" [1, 2, 3] 3 (PyErr.other "boom")
    rfl rfl rfl rfl).1 (Event.create "bkt" "k") (by decide)

-- Every event of the per-file loop addresses the destination key of one
-- of the processed filenames.
theorem process_files_keys (w : World) (cfg : FolderConfig) :
    ∀ fs, ∀ e ∈ (process_files w cfg fs).2,
      Event.keyOf e ∈ List.map (dest_key cfg.keyPref (get_current_date w)) fs := by
  intro fs
  induction fs with
  | nil => simp [process_files]
  | cons f rest ih =>
    intro e he
    rw [List.map_cons]
    cases hh : w.headObject cfg.s3_bucket_name (dest_key cfg.keyPref (get_current_date w) f) with
    | ok u =>
      rw [process_files_skip w cfg f rest u hh] at he
      rcases List.mem_cons.mp he with he | he
      · subst he
        exact List.mem_cons_self _ _
      · exact List.mem_cons_of_mem _ (ih e he)
    | error errH =>
      cases hu : (upload_large_file_to_s3 w (path_join cfg.folder f) cfg.s3_bucket_name
          (dest_key cfg.keyPref (get_current_date w) f)).1 with
      | ok u' =>
        cases u'
        rw [process_files_upload_ok w cfg f rest errH hh hu] at he
        simp only [List.cons_append, List.mem_cons, List.mem_append] at he
        rcases he with he | he | he
        · subst he
          exact List.mem_cons_self _ _
        · rw [upload_trace_keys w _ _ _ e he]
          exact List.mem_cons_self _ _
        · exact List.mem_cons_of_mem _ (ih e he)
      | error errU =>
        rw [process_files_upload_error w cfg f rest errH errU hh hu] at he
        rcases List.mem_cons.mp he with he | he
        · subst he
          exact List.mem_cons_self _ _
        · rw [upload_trace_keys w _ _ _ e he]
          exact List.mem_cons_self _ _

/-- Claim C4: every S3 call a backup_job run issues addresses the
destination key of one of the candidate filenames, built as key prefix,
slash, the current date in the form YYYY-MM-DD, slash, filename; in
particular a run dated 2024-03-01 with prefix db and file a.sql uses key
db/2024-03-01/a.sql. -/
theorem c4_destination_key :
    (∀ (w : World) (cfg : FolderConfig) (files : List String) (e : Event),
      w.listdir cfg.folder = Except.ok files →
      e ∈ (backup_job w cfg).2 →
      Event.keyOf e ∈ candidate_keys w cfg files) ∧
    dest_key "db" (get_current_date Wok) "a.sql" = "db/2024-03-01/a.sql" := by
  constructor
  · intro w cfg files e hls he
    rw [backup_job_trace] at he
    unfold backup_job_body at he
    rw [hls] at he
    exact process_files_keys w cfg _ e he
  · decide

/-- Witness for C4: the single head call of the sample run addresses the
key of the candidate a.sql. -/
theorem c4_witness :
    Event.keyOf (Event.head "bkt" "db/2024-03-01/a.sql") ∈
      candidate_keys Wok cfg0 ["a.sql", "b.tmp"] :=
  c4_destination_key.1 Wok cfg0 ["a.sql", "b.tmp"]
    (Event.head "bkt" "db/2024-03-01/a.sql") rfl (by decide)

/-- Counterexample for C6: in the aborting world both a.log and b.log are
candidates, but the generic exception raised by upload_part while
processing a.log escapes upload_large_file_to_s3 and aborts the per-file
loop, so the run makes no call at all for the key of b.log: its
existence check is never attempted. -/
theorem c6_counterexample :
    "b.log" ∈ files_to_backup ["a.log", "b.log"] [".log"] ∧
    (backup_job Wabort cfg6).2 =
      [Event.head "bkt" "p/2024-03-01/a.log",
       Event.create "bkt" "p/2024-03-01/a.log",
       Event.uploadPart "bkt" "p/2024-03-01/a.log" "u" 1 [7]] ∧
    events_for_key (dest_key "p" (get_current_date Wabort) "b.log")
      (backup_job Wabort cfg6).2 = [] := by
  refine ⟨by decide, by decide, by decide⟩

/-- Claim C6 (amended): a file whose processing raises only exceptions
that the code catches, that is whose existence check reports the key as
present or whose upload returns without an escaping exception, does not
abort the remaining files: the loop continues on the rest with the same
outcome.  Exceptions other than FileNotFoundError and NoCredentialsError
raised during an upload abort the remaining files of the run. -/
theorem c6_amended_containment (w : World) (cfg : FolderConfig) (f : String)
    (rest : List String)
    (h : (check_file_existence w cfg.s3_bucket_name
        (dest_key cfg.keyPref (get_current_date w) f)).1 = true ∨
      (upload_large_file_to_s3 w (path_join cfg.folder f) cfg.s3_bucket_name
        (dest_key cfg.keyPref (get_current_date w) f)).1 = Except.ok ()) :
    (process_files w cfg (f :: rest)).1 = (process_files w cfg rest).1 ∧
    ∃ pre, (process_files w cfg (f :: rest)).2 = pre ++ (process_files w cfg rest).2 := by
  cases hh : w.headObject cfg.s3_bucket_name (dest_key cfg.keyPref (get_current_date w) f) with
  | ok u =>
    rw [process_files_skip w cfg f rest u hh]
    exact ⟨rfl, ⟨[Event.head cfg.s3_bucket_name
      (dest_key cfg.keyPref (get_current_date w) f)], rfl⟩⟩
  | error errH =>
    rcases h with h | h
    · rw [check_error w _ _ errH hh] at h
      simp at h
    · rw [process_files_upload_ok w cfg f rest errH hh h]
      refine ⟨rfl, ⟨Event.head cfg.s3_bucket_name
        (dest_key cfg.keyPref (get_current_date w) f) ::
          (upload_large_file_to_s3 w (path_join cfg.folder f) cfg.s3_bucket_name
            (dest_key cfg.keyPref (get_current_date w) f)).2, by simp⟩⟩

/-- Witness for C6 (amended): with the key of a.sql already present, the
loop outcome on the singleton list equals the outcome on the empty
rest. -/
theorem c6_amended_witness :
    (process_files Wok cfg0 ["a.sql"]).1 = (process_files Wok cfg0 []).1 :=
  (c6_amended_containment Wok cfg0 "a.sql" [] (Or.inl (by decide))).1
